import Mathlib

/-!
Shallow embedding of the `constrictor` snake-game core
(`constrictor-core/src/math/{direction,vector2}.rs`,
`constrictor-core/src/models/{board,snake,snake_simulation}.rs`).

Machine integers `i32`/`usize` are modelled as `Int`/`Nat`; board sizes in
the program are far from overflow, and the one place where `usize`
subtraction can underflow (`Board::random_free_cell`) is modelled
explicitly as a panic. Rust panics (`unreachable!`, empty
`rand::random_range` range, underflow) are modelled as `none` / `.error`
results. The random draw of `rand::random_range(0..free_cells)` is
modelled by an explicit parameter `k`.
-/

namespace Constrictor

/-- `Direction` from `math/direction.rs`. -/
inductive Direction where
  | Up
  | Right
  | Down
  | Left
deriving DecidableEq, Repr

namespace Direction

/-- `Direction::ccw`: 90 degrees counter-clockwise. -/
def ccw : Direction → Direction
  | .Up => .Left
  | .Left => .Down
  | .Down => .Right
  | .Right => .Up

/-- `Direction::flip`: 180 degrees, implemented as `self.ccw().ccw()`. -/
def flip (d : Direction) : Direction :=
  d.ccw.ccw

/-- `Direction::cw`: 90 degrees clockwise, implemented as `self.flip().ccw()`. -/
def cw (d : Direction) : Direction :=
  d.flip.ccw

end Direction

/-- `Vector2` from `math/vector2.rs`, at the default parameter `T = i32`. -/
structure Vector2 where
  x : Int
  y : Int
deriving DecidableEq, Repr

namespace Vector2

/-- `Vector2::neighbour`: the vector shifted by `magnitude` in `direction`. -/
def neighbour (v : Vector2) (direction : Direction) (magnitude : Int) : Vector2 :=
  match direction with
  | .Up => { v with y := v.y + magnitude }
  | .Down => { v with y := v.y - magnitude }
  | .Left => { v with x := v.x - magnitude }
  | .Right => { v with x := v.x + magnitude }

end Vector2

/-- `Board` from `models/board.rs`. -/
structure Board where
  min_x : Int
  min_y : Int
  max_x : Int
  max_y : Int
deriving DecidableEq, Repr

namespace Board

/-- The invariant `Board::new` establishes (it asserts `x.0 < x.1` and
`y.0 < y.1` and stores ordered bounds). -/
def WF (b : Board) : Prop :=
  b.min_x < b.max_x ∧ b.min_y < b.max_y

instance (b : Board) : Decidable b.WF := by
  unfold WF; infer_instance

/-- `Board::new`, after its asserts: stores the ordered bounds. Under the
asserted precondition `x.0 < x.1 ∧ y.0 < y.1` the `min`/`max` calls are
the identity. -/
def new (x : Int × Int) (y : Int × Int) : Board :=
  { min_x := min x.1 x.2
    max_x := max x.1 x.2
    min_y := min y.1 y.2
    max_y := max y.1 y.2 }

/-- `Board::width`. -/
def width (b : Board) : Int :=
  b.max_x - b.min_x

/-- `Board::height`. -/
def height (b : Board) : Int :=
  b.max_y - b.min_y

/-- `Board::contains`: `x_range().contains(&point.x) && y_range().contains(&point.y)`
with half-open ranges. -/
def contains (b : Board) (point : Vector2) : Bool :=
  (decide (b.min_x ≤ point.x) && decide (point.x < b.max_x)) &&
    (decide (b.min_y ≤ point.y) && decide (point.y < b.max_y))

/-- `Board::cell_iter`: all cells, `y` outer ascending, `x` inner ascending
(row-major), as a list. -/
def cell_iter (b : Board) : List Vector2 :=
  (List.range b.height.toNat).flatMap fun (dy : Nat) =>
    (List.range b.width.toNat).map fun (dx : Nat) =>
      { x := b.min_x + (dx : Int), y := b.min_y + (dy : Int) }

/-- The ways `Board::random_free_cell` can panic. -/
inductive RandomFreeCellPanic where
  | subUnderflow
  | emptyRandomRange
deriving DecidableEq, Repr

/-- `Board::random_free_cell`. `total_cells - taken_cell_count` is `usize`
subtraction (panic on underflow); `rand::random_range(0..free_cells)` panics
when the range is empty, and otherwise draws `k < free_cells` (the draw is
the parameter `k`). The scan is
`cell_iter().filter(|c| !is_taken(c)).skip(k).next()`. -/
def random_free_cell (b : Board) (taken_cell_count : Nat)
    (is_taken : Vector2 → Bool) (k : Nat) :
    Except RandomFreeCellPanic (Option Vector2) :=
  let total_cells := b.width.toNat * b.height.toNat
  if total_cells < taken_cell_count then
    .error .subUnderflow
  else
    let free_cells := total_cells - taken_cell_count
    if free_cells = 0 then
      .error .emptyRandomRange
    else
      .ok (((b.cell_iter.filter fun cell => !is_taken cell).drop k).head?)

end Board

/-- `Snake` from `models/snake.rs`. The `VecDeque` body is a list with the
head at the front and the tail at the back; the `HashMap` occupancy map is
a function to `Option Nat` (`none` = key absent). -/
structure Snake where
  facing : Direction
  last_move_direction : Direction
  body : List Vector2
  body_point_counts : Vector2 → Option Nat

namespace Snake

/-- `Snake::push_head`: `body.push_front(head)` then
`*body_point_counts.entry(head).or_insert(0) += 1`. -/
def push_head (s : Snake) (head : Vector2) : Snake :=
  { s with
    body := head :: s.body
    body_point_counts := fun p =>
      if p = head then some ((s.body_point_counts head).getD 0 + 1)
      else s.body_point_counts p }

/-- `Snake::pop_tail`. Outer `none` models the `unreachable!` panic on an
occupancy entry missing for the popped tail; `some (s, none)` is the early
return when the body is empty. -/
def pop_tail (s : Snake) : Option (Snake × Option Vector2) :=
  match s.body.getLast? with
  | none => some (s, none)
  | some old_tail =>
    match s.body_point_counts old_tail with
    | none => none
    | some n =>
      let counts :=
        if n ≤ 1 then fun p => if p = old_tail then none else s.body_point_counts p
        else fun p => if p = old_tail then some (n - 1) else s.body_point_counts p
      some ({ s with body := s.body.dropLast, body_point_counts := counts },
        some old_tail)

/-- `Snake::new`: empty snake with `last_move_direction = facing = facing`,
then one `push_head`. -/
def new (head_position : Vector2) (facing : Direction) : Snake :=
  Snake.push_head
    { body := []
      body_point_counts := fun _ => none
      last_move_direction := facing
      facing := facing }
    head_position

/-- `Snake::len`. -/
def len (s : Snake) : Nat :=
  s.body.length

/-- `Snake::is_empty`. -/
def is_empty (s : Snake) : Bool :=
  s.body.isEmpty

/-- `Snake::head` (`body.front()`). The Rust code panics on an empty body;
every snake reachable through the public constructors has a nonempty body,
so the default value is never observable. -/
def head (s : Snake) : Vector2 :=
  s.body.headD { x := 0, y := 0 }

/-- `Snake::tail` (`body.back()`); same note as `Snake.head` about the
empty-body default. -/
def tail (s : Snake) : Vector2 :=
  s.body.getLastD { x := 0, y := 0 }

/-- `Snake::body_iter`: head-to-tail order. -/
def body_iter (s : Snake) : List Vector2 :=
  s.body

/-- `Snake::contains`: `body_point_counts.contains_key(point)`. -/
def contains (s : Snake) (point : Vector2) : Bool :=
  (s.body_point_counts point).isSome

/-- `Snake::next_head_position`: `head().neighbour(facing, 1)`. -/
def next_head_position (s : Snake) : Vector2 :=
  s.head.neighbour s.facing 1

/-- `Snake::try_set_facing`: returns the updated snake together with the
Rust return value. -/
def try_set_facing (s : Snake) (new_direction : Direction) : Snake × Bool :=
  if new_direction ≠ s.last_move_direction.flip then
    ({ s with facing := new_direction }, true)
  else
    (s, false)

/-- `Snake::advance`: compute the new head from the pre-mutation state, pop
the tail unless food was consumed, push the new head, commit
`last_move_direction = facing`. `none` propagates the `pop_tail` panic. -/
def advance (s : Snake) (consumed_food : Bool) : Option Snake :=
  let new_head := s.next_head_position
  let popped : Option Snake :=
    if !consumed_food then
      match s.pop_tail with
      | none => none
      | some (s1, _) => some s1
    else some s
  match popped with
  | none => none
  | some s1 =>
    let s2 := s1.push_head new_head
    some { s2 with last_move_direction := s2.facing }

end Snake

/-- `DeathReason` from `models/snake_simulation.rs`. -/
inductive DeathReason where
  | HitWall
  | HitSelf
deriving DecidableEq, Repr

/-- `SimulationResult` from `models/snake_simulation.rs`. -/
inductive SimulationResult where
  | Died (reason : DeathReason)
  | ManuallyTerminated
  | Won
deriving DecidableEq, Repr

/-- `SimulationParameterError` from `models/snake_simulation.rs`. -/
inductive SimulationParameterError where
  | SnakeOutOfBounds
  | FoodOutOfBounds
  | SnakeOverlapsFood
deriving DecidableEq, Repr

/-- `SnakeSimulation` from `models/snake_simulation.rs`. -/
structure SnakeSimulation where
  board : Board
  snake : Snake
  food_position : Vector2
  simulation_result : Option SimulationResult

namespace SnakeSimulation

/-- The per-cell body scan of `SnakeSimulation::new`, in `body_iter` (head
to tail) order: out-of-bounds is checked before overlap for each cell, the
first violation wins. -/
def check_body_cells (board : Board) (food_position : Vector2) :
    List Vector2 → Option SimulationParameterError
  | [] => none
  | cell :: rest =>
    if !board.contains cell then some .SnakeOutOfBounds
    else if food_position = cell then some .SnakeOverlapsFood
    else check_body_cells board food_position rest

/-- `SnakeSimulation::new`. -/
def new (board : Board) (snake : Snake) (food_position : Vector2) :
    Except SimulationParameterError SnakeSimulation :=
  if !board.contains food_position then
    .error .FoodOutOfBounds
  else
    match check_body_cells board food_position snake.body_iter with
    | some e => .error e
    | none =>
      .ok { board := board, snake := snake, food_position := food_position
            simulation_result := none }

/-- `SnakeSimulation::quit`: unconditionally stores `ManuallyTerminated`. -/
def quit (sim : SnakeSimulation) : SnakeSimulation :=
  { sim with simulation_result := some .ManuallyTerminated }

/-- `SnakeSimulation::change_player_move_direction`: forwards to
`Snake::try_set_facing`, discarding the returned flag. -/
def change_player_move_direction (sim : SnakeSimulation)
    (new_direction : Direction) : SnakeSimulation :=
  { sim with snake := (sim.snake.try_set_facing new_direction).1 }

/-- `SnakeSimulation::result`. -/
def result (sim : SnakeSimulation) : Option SimulationResult :=
  sim.simulation_result

/-- `SnakeSimulation::terminate`: store the result and return it. -/
def terminate (sim : SnakeSimulation) (r : SimulationResult) :
    SnakeSimulation × Option SimulationResult :=
  ({ sim with simulation_result := some r }, some r)

/-- `SnakeSimulation::random_valid_food_position`:
`board.random_free_cell(snake.len(), |cell| snake.contains(cell))`, with
the random draw modelled by `k`. -/
def random_valid_food_position (sim : SnakeSimulation) (k : Nat) :
    Except Board.RandomFreeCellPanic (Option Vector2) :=
  sim.board.random_free_cell sim.snake.len (fun cell => sim.snake.contains cell) k

/-- `SnakeSimulation::advance`. Returns the post-state together with the
Rust return value `Option<&SimulationResult>`; the outer `none` models a
panic (the `Snake::pop_tail` `unreachable!` or a `Board::random_free_cell`
panic). `k` models the random draw inside food respawning. -/
def advance (sim : SnakeSimulation) (k : Nat) :
    Option (SnakeSimulation × Option SimulationResult) :=
  match sim.simulation_result with
  | some r => some (sim, some r)
  | none =>
    let speculative_head := sim.snake.next_head_position
    if !sim.board.contains speculative_head then
      some (sim.terminate (.Died .HitWall))
    else
      let snake_will_hit_food := decide (speculative_head = sim.food_position)
      let snake_will_hit_tail := decide (speculative_head = sim.snake.tail)
      if sim.snake.contains speculative_head &&
          (!snake_will_hit_tail || snake_will_hit_food) then
        some (sim.terminate (.Died .HitSelf))
      else
        match sim.snake.advance snake_will_hit_food with
        | none => none
        | some snake2 =>
          let sim2 := { sim with snake := snake2 }
          if !snake_will_hit_food then
            some (sim2, none)
          else
            match sim2.random_valid_food_position k with
            | .error _ => none
            | .ok (some position) =>
              some ({ sim2 with food_position := position }, none)
            | .ok none => some (sim2.terminate .Won)

end SnakeSimulation

/-- The lock-step invariant between `Snake::body` and
`Snake::body_point_counts`, together with nonemptiness of the body (which
`Snake::new` establishes and `Snake::advance` preserves): the occupancy
entry for `p` is exactly the number of occurrences of `p` in the body,
with the entry absent when that number is zero. -/
def Snake.WF (s : Snake) : Prop :=
  s.body ≠ [] ∧
    ∀ p, s.body_point_counts p =
      if s.body.count p = 0 then none else some (s.body.count p)

/-- Snakes constructible through the public interface: `Snake::new`
followed by any sequence of `advance` / `try_set_facing` calls (`advance`
steps only count when they do not panic). -/
inductive Snake.Reachable : Snake → Prop
  | new : ∀ p f, Snake.Reachable (Snake.new p f)
  | advance : ∀ s consumed s2, Snake.Reachable s → s.advance consumed = some s2 →
      Snake.Reachable s2
  | set_facing : ∀ s d, Snake.Reachable s → Snake.Reachable (s.try_set_facing d).1

/-- The documented `SnakeSimulation` state invariant: food in bounds, food
not on the snake, snake in bounds. -/
def SnakeSimulation.Inv (sim : SnakeSimulation) : Prop :=
  sim.board.contains sim.food_position = true ∧
    sim.snake.contains sim.food_position = false ∧
    ∀ p ∈ sim.snake.body, sim.board.contains p = true

/-- Simulations constructible through the public interface: a successful
`SnakeSimulation::new` on a well-formed snake, followed by any sequence of
`advance` (non-panicking), `quit` and `change_player_move_direction`
calls. -/
inductive SnakeSimulation.Reachable : SnakeSimulation → Prop
  | new : ∀ b s f sim, Snake.WF s → SnakeSimulation.new b s f = .ok sim →
      SnakeSimulation.Reachable sim
  | advance : ∀ sim k out, SnakeSimulation.Reachable sim → sim.advance k = some out →
      SnakeSimulation.Reachable out.1
  | quit : ∀ sim, SnakeSimulation.Reachable sim → SnakeSimulation.Reachable sim.quit
  | change : ∀ sim d, SnakeSimulation.Reachable sim →
      SnakeSimulation.Reachable (sim.change_player_move_direction d)

/-! Concrete fixtures used by witnesses and counterexamples. -/

/-- A 2-cell board `x ∈ [0,2)`, `y ∈ [0,1)`. -/
def boardU : Board :=
  { min_x := 0, min_y := 0, max_x := 2, max_y := 1 }

/-- The 32x32 board of the game's `create_game`. -/
def boardA : Board :=
  { min_x := 1, min_y := 1, max_x := 33, max_y := 33 }

/-- A fresh length-1 snake at `(13,16)` facing right. -/
def snakeA : Snake :=
  Snake.new { x := 13, y := 16 } .Right

/-- The food position of scenario A. -/
def foodA : Vector2 :=
  { x := 19, y := 16 }

/-- The running simulation of scenario A (result of a successful
`SnakeSimulation::new`). -/
def simA : SnakeSimulation :=
  { board := boardA, snake := snakeA, food_position := foodA
    simulation_result := none }

/-- A simulation that has just died by hitting the wall: a length-1 snake
at `(0,0)` facing left on `boardU`, after one `advance`. -/
def simHitWall : SnakeSimulation :=
  let sim0 : SnakeSimulation :=
    { board := boardU
      snake := Snake.new { x := 0, y := 0 } .Left
      food_position := { x := 1, y := 0 }
      simulation_result := none }
  ((sim0.advance 0).getD (sim0, none)).1

/-- A length-4 snake forming a 2x2 square, built through the public
interface, whose next head position is exactly its current tail:
body `[(0,1), (1,1), (1,0), (0,0)]`, facing `Down`. -/
def snakeC : Snake :=
  let s0 := Snake.new { x := 0, y := 0 } .Right
  let s1 := (s0.advance true).getD s0
  let s2 := (s1.try_set_facing .Up).1
  let s3 := (s2.advance true).getD s2
  let s4 := (s3.try_set_facing .Left).1
  let s5 := (s4.advance true).getD s4
  (s5.try_set_facing .Down).1

/-- A running simulation around `snakeC` with the food away from the tail
cell (scenario C: safe tail-follow). -/
def simC : SnakeSimulation :=
  { board := { min_x := 0, min_y := 0, max_x := 4, max_y := 4 }
    snake := snakeC
    food_position := { x := 3, y := 3 }
    simulation_result := none }

/-- The taken-cell predicate used in the `boardU` fixtures: exactly the
cell `(0,0)` is taken. -/
def takenU : Vector2 → Bool :=
  fun p => decide (p = { x := 0, y := 0 })

/-! Helper lemmas. -/

theorem list_length_filter_partition {α : Type} (p : α → Bool) (l : List α) :
    (l.filter p).length + (l.filter fun a => !p a).length = l.length := by
  induction l with
  | nil => rfl
  | cons a t ih =>
    by_cases h : p a <;>
      simp [List.filter_cons, h, ih, Nat.add_right_comm, Nat.add_assoc] <;> omega

theorem list_mem_of_head_some {α : Type} {l : List α} {a : α}
    (h : l.head? = some a) : a ∈ l := by
  cases l with
  | nil => simp at h
  | cons b t =>
    simp at h
    simp [h]

theorem list_length_flatMap_map_range {β : Type} (m n : Nat) (f : Nat → Nat → β) :
    ((List.range n).flatMap fun i => (List.range m).map (f i)).length = n * m := by
  induction n with
  | zero => simp
  | succ k ih =>
    rw [List.range_succ, List.flatMap_append, List.length_append, ih]
    simp [Nat.succ_mul]

theorem Board.length_cell_iter (b : Board) :
    b.cell_iter.length = b.height.toNat * b.width.toNat := by
  rw [Board.cell_iter, list_length_flatMap_map_range]

theorem Board.contains_of_mem_cell_iter {b : Board} {p : Vector2}
    (h : p ∈ b.cell_iter) : b.contains p = true := by
  simp only [Board.cell_iter, List.mem_flatMap, List.mem_map, List.mem_range] at h
  obtain ⟨dy, hdy, dx, hdx, rfl⟩ := h
  have hx : (dx : Int) < b.max_x - b.min_x :=
    Int.lt_toNat.mp (show dx < (b.max_x - b.min_x).toNat from hdx)
  have hy : (dy : Int) < b.max_y - b.min_y :=
    Int.lt_toNat.mp (show dy < (b.max_y - b.min_y).toNat from hdy)
  simp only [Board.contains, Bool.and_eq_true, decide_eq_true_eq]
  refine ⟨⟨by omega, by omega⟩, by omega, by omega⟩

theorem Board.random_free_cell_ok_some {b : Board} {taken : Nat}
    {is_taken : Vector2 → Bool} {k : Nat} {c : Vector2}
    (h : b.random_free_cell taken is_taken k = .ok (some c)) :
    c ∈ b.cell_iter ∧ is_taken c = false := by
  simp only [Board.random_free_cell] at h
  split at h
  · exact absurd h (by simp)
  · split at h
    · exact absurd h (by simp)
    · have hc : c ∈ (b.cell_iter.filter fun cell => !is_taken cell).drop k := by
        apply list_mem_of_head_some
        simpa using h
      have hc2 := List.mem_filter.mp (List.mem_of_mem_drop hc)
      refine ⟨hc2.1, by simpa using hc2.2⟩

/-- C6: when `taken_cell_count` equals the exact number of taken board
cells and at least one free cell exists (the drawn index `k` lies in
`[0, width*height - taken_cell_count)`), `random_free_cell` returns `Some`
of the `k`-th untaken cell in row-major cell order, and that cell is not
taken; and (second conjunct, concretely) when `taken_cell_count`
undercounts the taken cells the scan can exhaust and return `None` even
though a free cell exists. -/
theorem claim_C6_random_free_cell (b : Board) (is_taken : Vector2 → Bool)
    (taken k : Nat)
    (hcount : taken = (b.cell_iter.filter is_taken).length)
    (hk : k < b.width.toNat * b.height.toNat - taken) :
    (∃ c, b.random_free_cell taken is_taken k = .ok (some c) ∧
        is_taken c = false ∧
        (b.cell_iter.filter fun cell => !is_taken cell)[k]? = some c) ∧
    (boardU.random_free_cell 0 takenU 1 = .ok none ∧
      takenU { x := 1, y := 0 } = false ∧
      boardU.contains { x := 1, y := 0 } = true ∧
      (boardU.cell_iter.filter takenU).length = 1) := by
  constructor
  · have hpart := list_length_filter_partition is_taken b.cell_iter
    have hlenle := List.length_filter_le is_taken b.cell_iter
    have hlen := b.length_cell_iter
    have hcomm : b.width.toNat * b.height.toNat = b.height.toNat * b.width.toNat :=
      Nat.mul_comm _ _
    have hk2 : k < (b.cell_iter.filter fun cell => !is_taken cell).length := by omega
    refine ⟨(b.cell_iter.filter fun cell => !is_taken cell)[k], ?_, ?_, ?_⟩
    · simp only [Board.random_free_cell]
      rw [if_neg (by omega), if_neg (by omega), List.head?_drop,
        List.getElem?_eq_getElem hk2]
    · have hm : (b.cell_iter.filter fun cell => !is_taken cell)[k] ∈
          b.cell_iter.filter fun cell => !is_taken cell := List.getElem_mem hk2
      have h2 := (List.mem_filter.mp hm).2
      simpa using h2
    · exact List.getElem?_eq_getElem hk2
  · exact ⟨rfl, by decide, by decide, by decide⟩

/-- Witness for C6 at `boardU` with exactly the cell `(0,0)` taken,
`taken_cell_count = 1` and draw `k = 0`. -/
theorem claim_C6_random_free_cell_witness :
    (∃ c, boardU.random_free_cell 1 takenU 0 = .ok (some c) ∧
        takenU c = false ∧
        (boardU.cell_iter.filter fun cell => !takenU cell)[0]? = some c) ∧
    (boardU.random_free_cell 0 takenU 1 = .ok none ∧
      takenU { x := 1, y := 0 } = false ∧
      boardU.contains { x := 1, y := 0 } = true ∧
      (boardU.cell_iter.filter takenU).length = 1) :=
  claim_C6_random_free_cell boardU takenU 1 0 (by decide) (by decide)

/-- C10: on any well-formed board, when `taken_cell_count` is at least
`width*height` (in particular equal, as when the snake fills the whole
board), `random_free_cell` panics — an unsigned-subtraction underflow when
`taken_cell_count` exceeds the total, and an empty `random_range` when the
computed number of free cells is zero — instead of returning `None`. -/
theorem claim_C10_full_board_panics (b : Board) (taken : Nat)
    (is_taken : Vector2 → Bool) (k : Nat) (_hb : b.WF)
    (h : b.width.toNat * b.height.toNat ≤ taken) :
    b.random_free_cell taken is_taken k =
      .error (if b.width.toNat * b.height.toNat < taken then .subUnderflow
        else .emptyRandomRange) := by
  by_cases h1 : b.width.toNat * b.height.toNat < taken
  · simp only [Board.random_free_cell, if_pos h1]
  · have h2 : b.width.toNat * b.height.toNat - taken = 0 := by omega
    simp only [Board.random_free_cell, if_neg h1, if_pos h2]

/-- Witness for C10: the 2-cell board with `taken_cell_count = 2`
(snake fills the whole board). -/
theorem claim_C10_full_board_panics_witness :
    boardU.random_free_cell 2 takenU 0 =
      .error (if boardU.width.toNat * boardU.height.toNat < 2 then .subUnderflow
        else .emptyRandomRange) :=
  claim_C10_full_board_panics boardU 2 takenU 0 (by decide) (by decide)

/-! Snake occupancy lemmas. -/

theorem Snake.wf_push_head {s : Snake}
    (hs : ∀ p, s.body_point_counts p =
      if s.body.count p = 0 then none else some (s.body.count p))
    (h : Vector2) :
    ∀ p, (s.push_head h).body_point_counts p =
      if (s.push_head h).body.count p = 0 then none
      else some ((s.push_head h).body.count p) := by
  intro p
  simp only [Snake.push_head]
  by_cases hp : p = h
  · subst hp
    have hc : (p :: s.body).count p = s.body.count p + 1 := by
      simp [List.count_cons]
    rw [if_pos rfl, hs p, hc]
    by_cases h0 : s.body.count p = 0
    · simp [h0]
    · simp [h0]
  · have hep : (h == p) = false := by
      simp only [beq_eq_false_iff_ne, Ne]
      exact fun e => hp e.symm
    have hc : (h :: s.body).count p = s.body.count p := by
      simp [List.count_cons, hep]
    rw [if_neg hp, hs p, hc]

theorem Snake.wf_new (p : Vector2) (f : Direction) : (Snake.new p f).WF := by
  constructor
  · simp [Snake.new, Snake.push_head]
  · intro q
    exact Snake.wf_push_head
      (s := { body := [], body_point_counts := fun _ => none
              last_move_direction := f, facing := f })
      (by simp) p q

theorem Snake.pop_tail_spec {s : Snake} (hne : s.body ≠ [])
    (hs : ∀ p, s.body_point_counts p =
      if s.body.count p = 0 then none else some (s.body.count p)) :
    ∃ s1, s.pop_tail = some (s1, some (s.body.getLast hne)) ∧
      s1.body = s.body.dropLast ∧
      s1.facing = s.facing ∧
      s1.last_move_direction = s.last_move_direction ∧
      ∀ p, s1.body_point_counts p =
        if s1.body.count p = 0 then none else some (s1.body.count p) := by
  have hlast : s.body.getLast? = some (s.body.getLast hne) :=
    List.getLast?_eq_getLast s.body hne
  have htmem : s.body.getLast hne ∈ s.body := List.getLast_mem hne
  have htcount : s.body.count (s.body.getLast hne) ≠ 0 := by
    rw [Ne, List.count_eq_zero]
    exact fun h => h htmem
  have hct : s.body_point_counts (s.body.getLast hne) =
      some (s.body.count (s.body.getLast hne)) := by
    rw [hs _, if_neg htcount]
  have hsplit : s.body.dropLast ++ [s.body.getLast hne] = s.body :=
    List.dropLast_append_getLast hne
  have hcount_drop : ∀ p, s.body.count p =
      s.body.dropLast.count p + if s.body.getLast hne = p then 1 else 0 := by
    intro p
    conv_lhs => rw [← hsplit]
    rw [List.count_append]
    congr 1
    simp [List.count_cons, beq_iff_eq]
  by_cases hn : s.body.count (s.body.getLast hne) ≤ 1
  · refine ⟨⟨s.facing, s.last_move_direction, s.body.dropLast,
      fun p => if p = s.body.getLast hne then none else s.body_point_counts p⟩,
      ?_, rfl, rfl, rfl, ?_⟩
    · simp only [Snake.pop_tail, hlast, hct]
      rw [if_pos hn]
    · intro p
      by_cases hp : p = s.body.getLast hne
      · subst hp
        have h1 := hcount_drop (s.body.getLast hne)
        rw [if_pos rfl] at h1
        have h2 : s.body.dropLast.count (s.body.getLast hne) = 0 := by omega
        simp [h2]
      · have h1 := hcount_drop p
        rw [if_neg (fun e => hp e.symm), Nat.add_zero] at h1
        simp only [if_neg hp, hs p, h1]
  · refine ⟨⟨s.facing, s.last_move_direction, s.body.dropLast,
      fun p => if p = s.body.getLast hne
        then some (s.body.count (s.body.getLast hne) - 1)
        else s.body_point_counts p⟩,
      ?_, rfl, rfl, rfl, ?_⟩
    · simp only [Snake.pop_tail, hlast, hct]
      rw [if_neg hn]
    · intro p
      by_cases hp : p = s.body.getLast hne
      · subst hp
        have h1 := hcount_drop (s.body.getLast hne)
        rw [if_pos rfl] at h1
        have h2 : s.body.dropLast.count (s.body.getLast hne) =
            s.body.count (s.body.getLast hne) - 1 := by omega
        have h3 : s.body.count (s.body.getLast hne) - 1 ≠ 0 := by omega
        simp [h2, h3]
      · have h1 := hcount_drop p
        rw [if_neg (fun e => hp e.symm), Nat.add_zero] at h1
        simp only [if_neg hp, hs p, h1]

theorem Snake.advance_spec {s : Snake} (hw : s.WF) (consumed : Bool) :
    ∃ s2, s.advance consumed = some s2 ∧
      s2.body = s.next_head_position ::
        (if consumed then s.body else s.body.dropLast) ∧
      s2.facing = s.facing ∧
      s2.last_move_direction = s.facing ∧
      s2.WF := by
  cases consumed with
  | true =>
    refine ⟨⟨s.facing, s.facing, s.next_head_position :: s.body,
      (s.push_head s.next_head_position).body_point_counts⟩,
      rfl, rfl, rfl, rfl, ?_, ?_⟩
    · simp
    · exact fun p => Snake.wf_push_head hw.2 s.next_head_position p
  | false =>
    obtain ⟨s1, he, hb, hf, hl, hcounts⟩ := Snake.pop_tail_spec hw.1 hw.2
    refine ⟨⟨s1.facing, s1.facing, s.next_head_position :: s1.body,
      (s1.push_head s.next_head_position).body_point_counts⟩,
      ?_, ?_, hf, hf, ?_, ?_⟩
    · rw [Snake.advance, he]
      rfl
    · rw [hb]
      rfl
    · simp
    · exact fun p => Snake.wf_push_head hcounts s.next_head_position p

theorem Snake.reachable_wf {s : Snake} (h : s.Reachable) : s.WF := by
  induction h with
  | new p f => exact Snake.wf_new p f
  | advance s consumed s2 hr heq ih =>
    obtain ⟨s3, he3, _, _, _, hwf⟩ := Snake.advance_spec ih consumed
    rw [he3] at heq
    obtain rfl := Option.some.inj heq
    exact hwf
  | set_facing s d hr ih =>
    constructor
    · simp only [Snake.try_set_facing]
      split
      · exact ih.1
      · exact ih.1
    · simp only [Snake.try_set_facing]
      split
      · exact ih.2
      · exact ih.2

theorem Snake.contains_iff {s : Snake}
    (hs : ∀ p, s.body_point_counts p =
      if s.body.count p = 0 then none else some (s.body.count p))
    (p : Vector2) :
    s.contains p = true ↔ p ∈ s.body := by
  rw [Snake.contains, hs p]
  by_cases h0 : s.body.count p = 0
  · simp [h0, List.count_eq_zero.mp h0]
  · simp [h0, List.count_pos_iff.mp (Nat.pos_of_ne_zero h0)]

/-- C4: for every snake built with `Snake::new` and mutated only through
`advance` and `try_set_facing`, the occupancy entry of every point is
exactly its number of occurrences in the body sequence (absent when zero);
consequently `contains(p)` holds iff `p` occurs in `body_iter()`, and the
divergence fault in `pop_tail` (`unreachable!`) is never reached by
`advance`. -/
theorem claim_C4_occupancy_invariant (s : Snake) (h : s.Reachable) :
    (∀ p, s.body_point_counts p =
      if s.body.count p = 0 then none else some (s.body.count p)) ∧
    (∀ p, s.contains p = true ↔ p ∈ s.body_iter) ∧
    (∀ consumed, s.advance consumed ≠ none) := by
  have hw := Snake.reachable_wf h
  refine ⟨hw.2, fun p => Snake.contains_iff hw.2 p, fun consumed => ?_⟩
  obtain ⟨s2, he, _⟩ := Snake.advance_spec hw consumed
  rw [he]
  exact fun hx => Option.noConfusion hx

/-- Witness for C4 at the freshly constructed `snakeA`. -/
theorem claim_C4_occupancy_invariant_witness :
    (∀ p, snakeA.body_point_counts p =
      if snakeA.body.count p = 0 then none else some (snakeA.body.count p)) ∧
    (∀ p, snakeA.contains p = true ↔ p ∈ snakeA.body_iter) ∧
    (∀ consumed, snakeA.advance consumed ≠ none) :=
  claim_C4_occupancy_invariant snakeA (Snake.Reachable.new _ _)

/-- C7: for every well-formed snake (any length, including 1) and every
`consumed_food` flag, `advance` moves the head one cell in the current
facing (computed from the pre-mutation head), commits
`last_move_direction = facing`, and leaves the length unchanged without
food and grows it by exactly one with food. -/
theorem claim_C7_snake_advance (s : Snake) (consumed_food : Bool)
    (hw : s.WF) :
    ∃ s2, s.advance consumed_food = some s2 ∧
      s2.head = s.head.neighbour s.facing 1 ∧
      s2.last_move_direction = s.facing ∧
      s2.len = (if consumed_food then s.len + 1 else s.len) := by
  obtain ⟨s2, he, hb, _, hl, hwf⟩ := Snake.advance_spec hw consumed_food
  refine ⟨s2, he, ?_, hl, ?_⟩
  · rw [Snake.head, hb]
    rfl
  · rw [Snake.len, Snake.len, hb]
    cases consumed_food with
    | true => simp
    | false =>
      have hpos : 0 < s.body.length := List.length_pos.mpr hw.1
      simp only [Bool.false_eq_true, if_false, List.length_cons,
        List.length_dropLast]
      omega

/-- Witness for C7: a fresh length-1 snake advancing without food. -/
theorem claim_C7_snake_advance_witness :
    ∃ s2, snakeA.advance false = some s2 ∧
      s2.head = snakeA.head.neighbour snakeA.facing 1 ∧
      s2.last_move_direction = snakeA.facing ∧
      s2.len = (if false then snakeA.len + 1 else snakeA.len) :=
  claim_C7_snake_advance snakeA false (Snake.wf_new _ _)

/-- C8: `try_set_facing(d)` returns `false` and leaves the snake unchanged
exactly when `d` is the flip of `last_move_direction`; otherwise it sets
`facing := d` and returns `true`. It never changes `last_move_direction`,
so the rejected reversal stays rejected until an `advance` commits a
move. -/
theorem claim_C8_try_set_facing (s : Snake) (d : Direction) :
    ((s.try_set_facing d).2 = false ∧ (s.try_set_facing d).1 = s ↔
      d = s.last_move_direction.flip) ∧
    (d ≠ s.last_move_direction.flip →
      s.try_set_facing d = ({ s with facing := d }, true)) ∧
    (s.try_set_facing d).1.last_move_direction = s.last_move_direction := by
  refine ⟨⟨?_, ?_⟩, ?_, ?_⟩
  · rintro ⟨h2, _⟩
    by_contra hne
    rw [Snake.try_set_facing, if_pos hne] at h2
    simp at h2
  · intro hd
    rw [Snake.try_set_facing, if_neg (fun h => h hd)]
    exact ⟨rfl, rfl⟩
  · intro hd
    rw [Snake.try_set_facing, if_pos hd]
  · rw [Snake.try_set_facing]
    split
    · rfl
    · rfl

/-- Witness for C8 at `snakeA` (last move `Right`) and `d = Up`. -/
theorem claim_C8_try_set_facing_witness :
    ((snakeA.try_set_facing .Up).2 = false ∧
        (snakeA.try_set_facing .Up).1 = snakeA ↔
      Direction.Up = snakeA.last_move_direction.flip) ∧
    (Direction.Up ≠ snakeA.last_move_direction.flip →
      snakeA.try_set_facing .Up = ({ snakeA with facing := .Up }, true)) ∧
    (snakeA.try_set_facing .Up).1.last_move_direction =
      snakeA.last_move_direction :=
  claim_C8_try_set_facing snakeA .Up

/-! Engine helper lemmas. -/

theorem Snake.try_set_facing_body (s : Snake) (d : Direction) :
    (s.try_set_facing d).1.body = s.body ∧
      (s.try_set_facing d).1.body_point_counts = s.body_point_counts := by
  rw [Snake.try_set_facing]
  split
  · exact ⟨rfl, rfl⟩
  · exact ⟨rfl, rfl⟩

theorem Snake.wf_try_set_facing {s : Snake} (hw : s.WF) (d : Direction) :
    (s.try_set_facing d).1.WF := by
  obtain ⟨hb, hc⟩ := Snake.try_set_facing_body s d
  exact ⟨by rw [hb]; exact hw.1, by rw [hc, hb]; exact hw.2⟩

theorem Snake.advance_false_no_panic (s : Snake)
    (hc : s.contains s.tail = true) : ∃ s2, s.advance false = some s2 := by
  cases hb : s.body.getLast? with
  | none =>
    simp only [Snake.advance, Snake.pop_tail, hb]
    exact ⟨_, rfl⟩
  | some t =>
    have htail : s.tail = t := by
      rw [Snake.tail, List.getLastD_eq_getLast?, hb]
      rfl
    rw [htail] at hc
    obtain ⟨n, hn⟩ := Option.isSome_iff_exists.mp hc
    simp only [Snake.advance, Snake.pop_tail, hb, hn]
    exact ⟨_, rfl⟩

theorem SnakeSimulation.check_none_of_ok (board : Board) (food : Vector2) :
    ∀ l : List Vector2, (∀ c ∈ l, board.contains c = true ∧ c ≠ food) →
      SnakeSimulation.check_body_cells board food l = none := by
  intro l
  induction l with
  | nil => intro _; rfl
  | cons c rest ih =>
    intro hall
    obtain ⟨h1, h2⟩ := hall c (List.mem_cons_self c rest)
    rw [SnakeSimulation.check_body_cells, h1]
    simp only [Bool.not_true, Bool.false_eq_true, if_false]
    rw [if_neg fun e => h2 e.symm]
    exact ih fun x hx => hall x (List.mem_cons_of_mem c hx)

theorem SnakeSimulation.check_skip_ok (board : Board) (food : Vector2) :
    ∀ (pre rest : List Vector2),
      (∀ c ∈ pre, board.contains c = true ∧ c ≠ food) →
      SnakeSimulation.check_body_cells board food (pre ++ rest) =
        SnakeSimulation.check_body_cells board food rest := by
  intro pre
  induction pre with
  | nil => intro rest _; rfl
  | cons c pre2 ih =>
    intro rest hall
    obtain ⟨h1, h2⟩ := hall c (List.mem_cons_self c pre2)
    rw [List.cons_append, SnakeSimulation.check_body_cells, h1]
    simp only [Bool.not_true, Bool.false_eq_true, if_false]
    rw [if_neg fun e => h2 e.symm]
    exact ih rest fun x hx => hall x (List.mem_cons_of_mem c hx)

theorem SnakeSimulation.ok_of_check_none (board : Board) (food : Vector2) :
    ∀ l : List Vector2, SnakeSimulation.check_body_cells board food l = none →
      ∀ c ∈ l, board.contains c = true ∧ c ≠ food := by
  intro l
  induction l with
  | nil => intro _ c hc; exact absurd hc (List.not_mem_nil c)
  | cons a rest ih =>
    intro hchk c hc
    rw [SnakeSimulation.check_body_cells] at hchk
    by_cases h1 : board.contains a = true
    · rw [h1] at hchk
      simp only [Bool.not_true, Bool.false_eq_true, if_false] at hchk
      by_cases h2 : food = a
      · rw [if_pos h2] at hchk
        exact absurd hchk (by simp)
      · rw [if_neg h2] at hchk
        rcases List.mem_cons.mp hc with rfl | hmem
        · exact ⟨h1, fun e => h2 e.symm⟩
        · exact ih hchk c hmem
    · have h1f : board.contains a = false := by
        cases hx : board.contains a
        · rfl
        · exact absurd hx h1
      rw [h1f] at hchk
      exact absurd hchk (by simp)

theorem SnakeSimulation.new_eq_of_contains (board : Board) (snake : Snake)
    (food : Vector2) (hfood : board.contains food = true) :
    SnakeSimulation.new board snake food =
      (match SnakeSimulation.check_body_cells board food snake.body_iter with
       | some e => .error e
       | none => .ok { board := board, snake := snake, food_position := food
                       simulation_result := none }) := by
  rw [SnakeSimulation.new, hfood]
  simp only [Bool.not_true, Bool.false_eq_true, if_false]

theorem SnakeSimulation.advance_of_terminal {sim : SnakeSimulation} {k : Nat}
    {r : SimulationResult} (h : sim.simulation_result = some r) :
    sim.advance k = some (sim, some r) := by
  rw [SnakeSimulation.advance, h]

theorem SnakeSimulation.advance_hit_wall {sim : SnakeSimulation} {k : Nat}
    (hres : sim.simulation_result = none)
    (hbc : sim.board.contains sim.snake.next_head_position = false) :
    sim.advance k = some (sim.terminate (.Died .HitWall)) := by
  rw [SnakeSimulation.advance, hres]
  simp [hbc]

theorem SnakeSimulation.advance_running (sim : SnakeSimulation) (k : Nat)
    (hres : sim.simulation_result = none)
    (hbc : sim.board.contains sim.snake.next_head_position = true) :
    sim.advance k =
      (if sim.snake.contains sim.snake.next_head_position &&
          (!decide (sim.snake.next_head_position = sim.snake.tail) ||
            decide (sim.snake.next_head_position = sim.food_position)) then
        some (sim.terminate (.Died .HitSelf))
      else
        match sim.snake.advance
            (decide (sim.snake.next_head_position = sim.food_position)) with
        | none => none
        | some snake2 =>
          if !decide (sim.snake.next_head_position = sim.food_position) then
            some ({ sim with snake := snake2 }, none)
          else
            match SnakeSimulation.random_valid_food_position
                { sim with snake := snake2 } k with
            | .error _ => none
            | .ok (some position) =>
              some ({ { sim with snake := snake2 } with
                food_position := position }, none)
            | .ok none =>
              some (SnakeSimulation.terminate { sim with snake := snake2 }
                .Won)) := by
  rw [SnakeSimulation.advance, hres]
  simp only [hbc, Bool.not_true, Bool.false_eq_true, if_false]

theorem SnakeSimulation.reachable_inv {sim : SnakeSimulation}
    (h : sim.Reachable) :
    sim.snake.WF ∧ (sim.simulation_result = none → sim.Inv) := by
  induction h with
  | new b s f sim2 hw hnew =>
    cases hcf : b.contains f with
    | false =>
      rw [SnakeSimulation.new, hcf] at hnew
      exact absurd hnew (by simp)
    | true =>
      rw [SnakeSimulation.new_eq_of_contains b s f hcf] at hnew
      cases hch : SnakeSimulation.check_body_cells b f s.body_iter with
      | some e =>
        rw [hch] at hnew
        exact absurd hnew (by simp)
      | none =>
        rw [hch] at hnew
        simp only [Except.ok.injEq] at hnew
        subst hnew
        have hall := SnakeSimulation.ok_of_check_none b f s.body_iter hch
        refine ⟨hw, fun _ => ⟨hcf, ?_, ?_⟩⟩
        · cases hc : s.contains f with
          | false => rfl
          | true =>
            have hmem : f ∈ s.body := (Snake.contains_iff hw.2 f).mp hc
            exact absurd rfl (hall f hmem).2
        · intro p hp
          exact (hall p hp).1
  | advance sim k out hr heq ih =>
    obtain ⟨ihw, ihinv⟩ := ih
    cases hres : sim.simulation_result with
    | some r =>
      rw [SnakeSimulation.advance_of_terminal hres] at heq
      obtain rfl := Option.some.inj heq
      exact ⟨ihw, fun hq => by rw [hres] at hq; exact Option.noConfusion hq⟩
    | none =>
      have hinv := ihinv hres
      cases hbc : sim.board.contains sim.snake.next_head_position with
      | false =>
        rw [SnakeSimulation.advance_hit_wall hres hbc] at heq
        obtain rfl := Option.some.inj heq
        exact ⟨ihw, fun hq => by simp [SnakeSimulation.terminate] at hq⟩
      | true =>
        cases hB : (sim.snake.contains sim.snake.next_head_position &&
            (!decide (sim.snake.next_head_position = sim.snake.tail) ||
              decide (sim.snake.next_head_position = sim.food_position))) with
        | true =>
          have hval : sim.advance k = some (sim.terminate (.Died .HitSelf)) := by
            rw [SnakeSimulation.advance_running sim k hres hbc, hB]
            rfl
          rw [hval] at heq
          obtain rfl := Option.some.inj heq
          exact ⟨ihw, fun hq => by simp [SnakeSimulation.terminate] at hq⟩
        | false =>
          cases hdf : decide (sim.snake.next_head_position = sim.food_position) with
          | false =>
            obtain ⟨s2, hs2, hbody2, _, _, hwf2⟩ := Snake.advance_spec ihw false
            have hbody : s2.body =
                sim.snake.next_head_position :: sim.snake.body.dropLast :=
              hbody2.trans rfl
            have hval : sim.advance k = some ({ sim with snake := s2 }, none) := by
              rw [SnakeSimulation.advance_running sim k hres hbc, hB, hdf, hs2]
              rfl
            rw [hval] at heq
            obtain rfl := Option.some.inj heq
            refine ⟨hwf2, fun _ => ⟨hinv.1, ?_, ?_⟩⟩
            · cases hc2 : s2.contains sim.food_position with
              | false => rfl
              | true =>
                have hmem := (Snake.contains_iff hwf2.2 _).mp hc2
                rw [hbody] at hmem
                rcases List.mem_cons.mp hmem with heq2 | hmem2
                · rw [← heq2] at hdf
                  simp at hdf
                · have hmb : sim.food_position ∈ sim.snake.body :=
                    List.mem_of_mem_dropLast hmem2
                  have hcf := (Snake.contains_iff ihw.2 _).mpr hmb
                  rw [hinv.2.1] at hcf
                  exact absurd hcf (by simp)
            · intro p hp
              have hp2 : p ∈ s2.body := hp
              rw [hbody] at hp2
              show sim.board.contains p = true
              rcases List.mem_cons.mp hp2 with rfl | hp3
              · exact hbc
              · exact hinv.2.2 p (List.mem_of_mem_dropLast hp3)
          | true =>
            obtain ⟨s2, hs2, hbody2, _, _, hwf2⟩ := Snake.advance_spec ihw true
            have hbody : s2.body =
                sim.snake.next_head_position :: sim.snake.body :=
              hbody2.trans rfl
            have hstep : sim.advance k =
                (match SnakeSimulation.random_valid_food_position
                    { sim with snake := s2 } k with
                 | .error _ => none
                 | .ok (some position) =>
                   some ({ { sim with snake := s2 } with
                     food_position := position }, none)
                 | .ok none =>
                   some (SnakeSimulation.terminate { sim with snake := s2 }
                     .Won)) := by
              rw [SnakeSimulation.advance_running sim k hres hbc, hB, hdf, hs2]
              rfl
            cases hrv : SnakeSimulation.random_valid_food_position
                { sim with snake := s2 } k with
            | error e =>
              rw [hstep, hrv] at heq
              exact Option.noConfusion heq
            | ok v =>
              cases v with
              | some position =>
                rw [hstep, hrv] at heq
                obtain rfl := Option.some.inj heq
                have hrv2 : sim.board.random_free_cell s2.len
                    (fun c => s2.contains c) k = .ok (some position) := hrv
                obtain ⟨hmem_cell, hfree⟩ := Board.random_free_cell_ok_some hrv2
                refine ⟨hwf2, fun _ => ⟨?_, ?_, ?_⟩⟩
                · exact Board.contains_of_mem_cell_iter hmem_cell
                · exact hfree
                · intro p hp
                  have hp2 : p ∈ s2.body := hp
                  rw [hbody] at hp2
                  show sim.board.contains p = true
                  rcases List.mem_cons.mp hp2 with rfl | hp3
                  · exact hbc
                  · exact hinv.2.2 p hp3
              | none =>
                rw [hstep, hrv] at heq
                obtain rfl := Option.some.inj heq
                exact ⟨hwf2, fun hq => by
                  simp [SnakeSimulation.terminate] at hq⟩
  | quit sim2 hr ih =>
    exact ⟨ih.1, fun hq => by simp [SnakeSimulation.quit] at hq⟩
  | change sim2 d hr ih =>
    obtain ⟨hb, hc⟩ := Snake.try_set_facing_body sim2.snake d
    refine ⟨Snake.wf_try_set_facing ih.1 d, fun hq => ?_⟩
    have hinv := ih.2 hq
    refine ⟨hinv.1, ?_, ?_⟩
    · show ((sim2.snake.try_set_facing d).1.body_point_counts
        sim2.food_position).isSome = false
      rw [hc]
      exact hinv.2.1
    · intro p hp
      have hp2 : p ∈ sim2.snake.body := by rw [← hb]; exact hp
      exact hinv.2.2 p hp2

/-- C2 (amended): `quit()` unconditionally overwrites the stored result
with `ManuallyTerminated`, whether or not a terminal result (such as a
`Died` outcome) was already present. -/
theorem claim_C2_quit_overwrites (sim : SnakeSimulation) :
    sim.quit.simulation_result = some .ManuallyTerminated :=
  rfl

/-- Counterexample for C2 as stated: an engine that has already died by
hitting the wall does not keep its `Died(HitWall)` result across `quit()` —
the result is overwritten with `ManuallyTerminated`. -/
theorem claim_C2_quit_counterexample :
    simHitWall.simulation_result = some (.Died .HitWall) ∧
    simHitWall.quit.simulation_result = some .ManuallyTerminated ∧
    simHitWall.quit.simulation_result ≠ simHitWall.simulation_result :=
  ⟨rfl, rfl, by decide⟩

/-- C3: once `result()` is `Some r`, every further `advance()` returns the
same stored result and leaves the entire engine state unchanged. -/
theorem claim_C3_advance_after_terminal (sim : SnakeSimulation) (k : Nat)
    (r : SimulationResult) (h : sim.simulation_result = some r) :
    sim.advance k = some (sim, some r) :=
  SnakeSimulation.advance_of_terminal h

/-- Witness for C3: a second `advance` after a `HitWall` death returns the
stored result and the unchanged state. -/
theorem claim_C3_advance_after_terminal_witness :
    simHitWall.advance 0 = some (simHitWall, some (.Died .HitWall)) :=
  claim_C3_advance_after_terminal simHitWall 0 (.Died .HitWall) rfl

/-- C5: in every reachable engine state that is still running (constructed
by a successful `new` and mutated through the public interface, with
`result()` still `None` — which covers exactly the states after `new` and
after every `advance` returning `None`), the food is on the board, the
food is not on the snake, and every snake body cell is on the board. -/
theorem claim_C5_running_invariant (sim : SnakeSimulation)
    (h : sim.Reachable) (hrun : sim.simulation_result = none) :
    sim.board.contains sim.food_position = true ∧
    sim.snake.contains sim.food_position = false ∧
    ∀ p ∈ sim.snake.body_iter, sim.board.contains p = true :=
  (SnakeSimulation.reachable_inv h).2 hrun

/-- Witness for C5 at the freshly constructed scenario-A engine. -/
theorem claim_C5_running_invariant_witness :
    simA.board.contains simA.food_position = true ∧
    simA.snake.contains simA.food_position = false ∧
    ∀ p ∈ simA.snake.body_iter, simA.board.contains p = true :=
  claim_C5_running_invariant simA
    (SnakeSimulation.Reachable.new boardA snakeA foodA simA
      (Snake.wf_new _ _) rfl) rfl

/-- C9: `SnakeSimulation::new` rejects an out-of-board food with
`FoodOutOfBounds` first; otherwise it scans the body head-to-tail and for
the first violating cell returns `SnakeOutOfBounds` (checked before the
overlap check on each cell) or `SnakeOverlapsFood`; with no violation it
returns `Ok` with the given parts and no result set. -/
theorem claim_C9_new_validation (board : Board) (snake : Snake)
    (food_position : Vector2) :
    (board.contains food_position = false →
      SnakeSimulation.new board snake food_position =
        .error .FoodOutOfBounds) ∧
    (board.contains food_position = true →
      ((∀ c ∈ snake.body_iter, board.contains c = true ∧ c ≠ food_position) →
        SnakeSimulation.new board snake food_position =
          .ok { board := board, snake := snake
                food_position := food_position, simulation_result := none }) ∧
      (∀ pre cell rest, snake.body_iter = pre ++ cell :: rest →
        (∀ c ∈ pre, board.contains c = true ∧ c ≠ food_position) →
        (board.contains cell = false →
          SnakeSimulation.new board snake food_position =
            .error .SnakeOutOfBounds) ∧
        (board.contains cell = true → cell = food_position →
          SnakeSimulation.new board snake food_position =
            .error .SnakeOverlapsFood))) := by
  refine ⟨?_, fun hfood => ⟨?_, ?_⟩⟩
  · intro hf
    rw [SnakeSimulation.new, hf]
    rfl
  · intro hall
    rw [SnakeSimulation.new_eq_of_contains board snake food_position hfood,
      SnakeSimulation.check_none_of_ok board food_position snake.body_iter
        hall]
  · intro pre cell rest hsplit hpre
    constructor
    · intro hcell
      rw [SnakeSimulation.new_eq_of_contains board snake food_position hfood,
        hsplit,
        SnakeSimulation.check_skip_ok board food_position pre (cell :: rest)
          hpre]
      simp only [SnakeSimulation.check_body_cells, hcell]
      rfl
    · intro hcell hceq
      rw [SnakeSimulation.new_eq_of_contains board snake food_position hfood,
        hsplit,
        SnakeSimulation.check_skip_ok board food_position pre (cell :: rest)
          hpre]
      simp only [SnakeSimulation.check_body_cells, hcell, Bool.not_true,
        Bool.false_eq_true, if_false]
      rw [if_pos hceq.symm]

/-- Witness for C9: the scenario-A parameters validate successfully. -/
theorem claim_C9_new_validation_witness :
    SnakeSimulation.new boardA snakeA foodA =
      .ok { board := boardA, snake := snakeA, food_position := foodA
            simulation_result := none } :=
  ((claim_C9_new_validation boardA snakeA foodA).2 (by decide)).1 (by decide)

/-- C1: for a running engine whose speculative head is on the board,
`advance` dies with `HitSelf` exactly when the snake occupies the
speculative head and it is not a safe tail-follow (head onto the current
tail with no food there); in particular a length≥3 snake moving onto its
own tail keeps running when no food is on that cell, and dies with
`HitSelf` when food is on that cell. -/
theorem claim_C1_hit_self_rule (sim : SnakeSimulation) (k : Nat)
    (hrun : sim.simulation_result = none)
    (hin : sim.board.contains sim.snake.next_head_position = true) :
    ((∃ sim2, sim.advance k = some (sim2, some (.Died .HitSelf))) ↔
      (sim.snake.contains sim.snake.next_head_position = true ∧
        ¬(sim.snake.next_head_position = sim.snake.tail ∧
          ¬sim.snake.next_head_position = sim.food_position))) ∧
    (3 ≤ sim.snake.len →
      sim.snake.next_head_position = sim.snake.tail →
      sim.snake.contains sim.snake.tail = true →
      ¬sim.snake.next_head_position = sim.food_position →
      ∃ sim2, sim.advance k = some (sim2, none)) ∧
    (3 ≤ sim.snake.len →
      sim.snake.next_head_position = sim.snake.tail →
      sim.snake.contains sim.snake.tail = true →
      sim.snake.next_head_position = sim.food_position →
      ∃ sim2, sim.advance k = some (sim2, some (.Died .HitSelf))) := by
  have hsh := SnakeSimulation.advance_running sim k hrun hin
  have hiff : (sim.snake.contains sim.snake.next_head_position &&
      (!decide (sim.snake.next_head_position = sim.snake.tail) ||
        decide (sim.snake.next_head_position = sim.food_position))) = true ↔
      (sim.snake.contains sim.snake.next_head_position = true ∧
        ¬(sim.snake.next_head_position = sim.snake.tail ∧
          ¬sim.snake.next_head_position = sim.food_position)) := by
    rw [Bool.and_eq_true, Bool.or_eq_true, Bool.not_eq_true',
      decide_eq_false_iff_not, decide_eq_true_eq]
    tauto
  refine ⟨?_, ?_, ?_⟩
  · rw [hsh]
    cases hB : (sim.snake.contains sim.snake.next_head_position &&
        (!decide (sim.snake.next_head_position = sim.snake.tail) ||
          decide (sim.snake.next_head_position = sim.food_position))) with
    | true =>
      rw [if_pos rfl]
      constructor
      · intro _
        exact hiff.mp hB
      · intro _
        exact ⟨_, rfl⟩
    | false =>
      rw [if_neg (by simp)]
      constructor
      · rintro ⟨sim2, hadv⟩
        exfalso
        cases hdf : decide (sim.snake.next_head_position =
            sim.food_position) with
        | false =>
          rw [hdf] at hadv
          cases hsa : sim.snake.advance false with
          | none =>
            rw [hsa] at hadv
            exact Option.noConfusion hadv
          | some s2 =>
            rw [hsa] at hadv
            exact Option.noConfusion
              (congrArg Prod.snd (Option.some.inj hadv))
        | true =>
          rw [hdf] at hadv
          cases hsa : sim.snake.advance true with
          | none =>
            rw [hsa] at hadv
            exact Option.noConfusion hadv
          | some s2 =>
            rw [hsa] at hadv
            have hadv2 : (match SnakeSimulation.random_valid_food_position
                { sim with snake := s2 } k with
              | .error _ =>
                (none : Option (SnakeSimulation × Option SimulationResult))
              | .ok (some position) =>
                some ({ { sim with snake := s2 } with
                  food_position := position }, none)
              | .ok none =>
                some (SnakeSimulation.terminate { sim with snake := s2 }
                  .Won)) = some (sim2, some (.Died .HitSelf)) := hadv
            cases hrv : SnakeSimulation.random_valid_food_position
                { sim with snake := s2 } k with
            | error e =>
              rw [hrv] at hadv2
              exact Option.noConfusion hadv2
            | ok v =>
              cases v with
              | some position =>
                rw [hrv] at hadv2
                exact Option.noConfusion
                  (congrArg Prod.snd (Option.some.inj hadv2))
              | none =>
                rw [hrv] at hadv2
                have h2 := congrArg Prod.snd (Option.some.inj hadv2)
                exact SimulationResult.noConfusion (Option.some.inj h2)
      · intro hR
        have hx := hiff.mpr hR
        rw [hB] at hx
        exact Bool.noConfusion hx
  · intro _ hTail hcont hfood
    rw [hsh]
    have h2 : decide (sim.snake.next_head_position = sim.food_position) =
        false := by simp [hfood]
    have h3 : decide (sim.snake.next_head_position = sim.snake.tail) =
        true := by simp [hTail]
    have hB : (sim.snake.contains sim.snake.next_head_position &&
        (!decide (sim.snake.next_head_position = sim.snake.tail) ||
          decide (sim.snake.next_head_position = sim.food_position))) =
        false := by
      rw [h2, h3]
      simp
    rw [hB, if_neg (by simp), h2]
    obtain ⟨s2, hs2⟩ := Snake.advance_false_no_panic sim.snake hcont
    rw [hs2]
    exact ⟨_, rfl⟩
  · intro _ hTail hcont hfood
    rw [hsh]
    have h1 : sim.snake.contains sim.snake.next_head_position = true := by
      rw [hTail]
      exact hcont
    have h2 : decide (sim.snake.next_head_position = sim.food_position) =
        true := by simp [hfood]
    have hB : (sim.snake.contains sim.snake.next_head_position &&
        (!decide (sim.snake.next_head_position = sim.snake.tail) ||
          decide (sim.snake.next_head_position = sim.food_position))) =
        true := by
      rw [h1, h2]
      simp
    rw [hB, if_pos rfl]
    exact ⟨_, rfl⟩

/-- Witness for C1: the length-4 square snake `snakeC` moving onto its own
tail with the food elsewhere keeps running. -/
theorem claim_C1_hit_self_rule_witness :
    ∃ sim2, simC.advance 0 = some (sim2, none) :=
  (claim_C1_hit_self_rule simC 0 rfl (by decide)).2.1 (by decide) (by decide)
    (by decide) (by decide)

end Constrictor
